import Mathlib

/-!
Verification of the map-delivery demo (React single-page app).

The embedding follows the main component file (the newer of the two source
files, which carries the delivery tracker).  Pure numeric code (the linear
interpolator and the sinusoidal scale curve) is embedded as real-valued
functions.  The component's React state and its two mutators — the click
handler and the animation-frame callback — are embedded as a state record
and total transition functions; the browser's scheduling of animation
frames is abstracted into a small-step reachability relation in which a
frame callback may fire at any progress fraction t while its trip is
scheduled.
-/

/-! ## Interpolator -/

/-- Linear interpolation between two numbers, as in the source:
a + (b - a) * t. -/
def lerp (a b t : ℝ) : ℝ := a + (b - a) * t

/-- The scale curve computed each frame in the source step callback:
1 + 0.6 * sin(pi * t). -/
noncomputable def scaleAt (t : ℝ) : ℝ := 1 + 0.6 * Real.sin (Real.pi * t)

/-- A coordinate is a (latitude, longitude) pair. -/
abbrev Coord := ℝ × ℝ

/-- The interpolator of the spec: position by componentwise lerp, scale by
the sine curve.  This packages exactly the two computations the source step
callback performs each frame. -/
noncomputable def interpolate (src dst : Coord) (t : ℝ) : Coord × ℝ :=
  ((lerp src.1 dst.1 t, lerp src.2 dst.2 t), scaleAt t)

/-- Start coordinate fixed in the source (India). -/
def INDIA_COORD : Coord := (13.054864947131488, 80.2241185689344)

/-- End coordinate fixed in the source (Argentina). -/
def ARGENTINA_COORD : Coord := (-34.58419557192974, -58.39822695799831)

/-! ## Delivery tracker state -/

/-- Cap on completed deliveries, as in the source. -/
def MAX_DELIVERIES : ℕ := 5

/-- The React state of the App component, plus the list of scheduled
animation loops.  In the source each call to animateBucket starts one
requestAnimationFrame loop over a closure holding (from, to); activeTrips
records the loops currently scheduled, newest first. -/
structure AppState where
  movingPosition : Option Coord
  showIdle : Bool
  deliveredMarkers : List Coord
  isAnimating : Bool
  movingScale : ℝ
  deliveredCount : ℕ
  activeTrips : List (Coord × Coord)

/-- Initial state of the component: no moving marker, idle marker shown,
no delivered markers, not animating, scale 1, count 0, no scheduled loop. -/
def initialState : AppState :=
  { movingPosition := none
    showIdle := true
    deliveredMarkers := []
    isAnimating := false
    movingScale := 1
    deliveredCount := 0
    activeTrips := [] }

/-- Outcome of one click on the order button: a trip started, or the click
was rejected.  maxAlert and noIdleAlert correspond to the two window.alert
calls in the source (user-visible notices); silentNoOp is the bare return
taken while an animation runs. -/
inductive ClickResult
  | started
  | maxAlert
  | silentNoOp
  | noIdleAlert
  deriving DecidableEq

/-- Whether a click outcome surfaces a user-visible notice (a window.alert
in the source). -/
def surfacesNotice : ClickResult → Bool
  | ClickResult.maxAlert => true
  | ClickResult.noIdleAlert => true
  | _ => false

/-- animateBucket(from, to): sets the moving marker at the start, resets
its scale to 1, marks the animation running, and schedules a new
animation-frame loop for the trip. -/
def animateBucket (s : AppState) (src dst : Coord) : AppState :=
  { s with
    movingPosition := some src
    movingScale := 1
    isAnimating := true
    activeTrips := (src, dst) :: s.activeTrips }

/-- handleOrderClick, guard for guard as in the source: alert and return if
the cap is reached; bare return if an animation runs; alert and return if
no idle marker waits; otherwise hide the idle marker and start the
India-to-Argentina trip. -/
def handleOrderClick (s : AppState) : AppState × ClickResult :=
  if MAX_DELIVERIES ≤ s.deliveredCount then (s, ClickResult.maxAlert)
  else if s.isAnimating then (s, ClickResult.silentNoOp)
  else if !s.showIdle then (s, ClickResult.noIdleAlert)
  else (animateBucket { s with showIdle := false } INDIA_COORD ARGENTINA_COORD,
        ClickResult.started)

/-- One animation frame with clamped progress t < 1: the step callback
writes the interpolated position and the sine scale and reschedules
itself; nothing else changes. -/
noncomputable def stepMove (s : AppState) (src dst : Coord) (t : ℝ) : AppState :=
  { s with
    movingPosition := some (lerp src.1 dst.1 t, lerp src.2 dst.2 t)
    movingScale := scaleAt t }

/-- Net effect of the final animation frame (clamped progress t = 1): the
callback stops the loop, clears isAnimating, appends the destination to
the delivered markers, increments the count, shows the idle marker again
exactly when the new count is below the cap, and clears the moving marker
back to null with scale 1.  (The position/scale writes the final frame
makes first are overwritten by null and 1 in the same handler, so the net
state is as below.) -/
def stepComplete (s : AppState) (dst : Coord) : AppState :=
  { s with
    movingPosition := none
    showIdle := decide (s.deliveredCount + 1 < MAX_DELIVERIES)
    deliveredMarkers := s.deliveredMarkers ++ [dst]
    isAnimating := false
    movingScale := 1
    deliveredCount := s.deliveredCount + 1
    activeTrips := s.activeTrips.tail }

/-- States reachable from the initial state by clicks and animation-frame
events.  A frame event (move or complete) may fire only while its trip's
loop is scheduled; the source clamps t = min(1, elapsed/duration) to
[0, 1], with completion exactly at t = 1. -/
inductive Reachable : AppState → Prop
  | init : Reachable initialState
  | click (s : AppState) : Reachable s → Reachable (handleOrderClick s).1
  | move (s : AppState) (src dst : Coord) (rest : List (Coord × Coord)) (t : ℝ) :
      Reachable s → s.activeTrips = (src, dst) :: rest → 0 ≤ t → t < 1 →
      Reachable (stepMove s src dst t)
  | complete (s : AppState) (src dst : Coord) (rest : List (Coord × Coord)) :
      Reachable s → s.activeTrips = (src, dst) :: rest →
      Reachable (stepComplete s dst)

/-- The spec's tracker state machine: Idle (ready to dispatch), InFlight
(trip active), Exhausted (cap reached, terminal). -/
inductive TrackerState
  | Idle
  | InFlight
  | Exhausted
  deriving DecidableEq

/-- Abstraction map onto the spec's tracker state machine: a running
animation is InFlight; otherwise the tracker is Exhausted once the count
reaches the cap, else Idle. -/
def trackerState (s : AppState) : TrackerState :=
  if s.isAnimating then TrackerState.InFlight
  else if MAX_DELIVERIES ≤ s.deliveredCount then TrackerState.Exhausted
  else TrackerState.Idle

/-! ## Concrete runs -/

/-- One full delivery: a click followed by the completion of the trip it
started. -/
def tripOnce (s : AppState) : AppState :=
  stepComplete (handleOrderClick s).1 ARGENTINA_COORD

/-- State after n consecutive completed deliveries from the initial
state. -/
def runTrips : ℕ → AppState
  | 0 => initialState
  | n + 1 => tripOnce (runTrips n)

/-- State after n further clicks once all five deliveries are done. -/
def clicksAfter : ℕ → AppState
  | 0 => runTrips 5
  | n + 1 => (handleOrderClick (clicksAfter n)).1

/-- State after the very first click from the initial state (a trip is
in flight). -/
def afterFirstClick : AppState := (handleOrderClick initialState).1

/-! ## The reachability invariant -/

/-- Master invariant over reachable states:
the isAnimating flag tracks exactly whether a loop is scheduled;
at most one loop is ever scheduled;
the delivered-marker list and the delivered count stay in sync;
completed plus in-flight trips never exceed the cap;
the idle marker shows exactly when no trip runs and the cap is not reached;
the moving marker exists exactly while animating;
and outside an animation the moving scale is 1. -/
def StateInv (s : AppState) : Prop :=
  (s.isAnimating = true ↔ s.activeTrips ≠ []) ∧
  s.activeTrips.length ≤ 1 ∧
  s.deliveredMarkers.length = s.deliveredCount ∧
  s.deliveredCount + s.activeTrips.length ≤ MAX_DELIVERIES ∧
  (s.showIdle = true ↔ (s.isAnimating = false ∧ s.deliveredCount < MAX_DELIVERIES)) ∧
  (s.movingPosition ≠ none ↔ s.isAnimating = true) ∧
  (s.isAnimating = false → s.movingScale = 1)

theorem reachable_inv {s : AppState} (h : Reachable s) : StateInv s := by
  induction h with
  | init =>
    refine ⟨by simp [initialState], ?_, ?_, ?_, ?_, ?_, ?_⟩ <;>
      simp [initialState, MAX_DELIVERIES]
  | click s hr ih =>
    obtain ⟨i1, i2, i3, i4, i5, i6, i7⟩ := ih
    by_cases hmax : MAX_DELIVERIES ≤ s.deliveredCount
    · simpa [handleOrderClick, hmax] using ⟨i1, i2, i3, i4, i5, i6, i7⟩
    · by_cases hanim : s.isAnimating = true
      · simpa [handleOrderClick, hmax, hanim] using ⟨i1, i2, i3, i4, i5, i6, i7⟩
      · have hanim' : s.isAnimating = false := by
          revert hanim; cases s.isAnimating <;> simp
        have htrips : s.activeTrips = [] := by
          by_contra hne
          have := i1.mpr hne
          rw [hanim'] at this
          exact Bool.false_ne_true this
        by_cases hidle : s.showIdle = true
        · have hlt : s.deliveredCount < MAX_DELIVERIES := Nat.lt_of_not_le hmax
          refine ?_
          simp only [handleOrderClick, hmax, hanim', hidle, if_neg, if_pos,
            Bool.not_true, ite_false, ite_true, Bool.false_eq_true]
          refine ⟨by simp [animateBucket], ?_, ?_, ?_, ?_, ?_, ?_⟩
          · simp [animateBucket, htrips]
          · simpa [animateBucket] using i3
          · simp only [animateBucket, htrips, List.length_cons, List.length_nil]
            omega
          · simp [animateBucket]
          · simp [animateBucket]
          · simp [animateBucket]
        · have hidle' : s.showIdle = false := by
            revert hidle; cases s.showIdle <;> simp
          simpa [handleOrderClick, hmax, hanim', hidle'] using
            ⟨i1, i2, i3, i4, i5, i6, i7⟩
  | move s src dst rest t hr htrips h0 h1 ih =>
    obtain ⟨i1, i2, i3, i4, i5, i6, i7⟩ := ih
    have hanim : s.isAnimating = true := i1.mpr (by simp [htrips])
    refine ⟨?_, ?_, ?_, ?_, ?_, ?_, ?_⟩
    · simpa [stepMove] using i1
    · simpa [stepMove] using i2
    · simpa [stepMove] using i3
    · simpa [stepMove] using i4
    · simpa [stepMove] using i5
    · simp [stepMove, hanim]
    · simp [stepMove, hanim]
  | complete s src dst rest hr htrips ih =>
    obtain ⟨i1, i2, i3, i4, i5, i6, i7⟩ := ih
    have hrest : rest = [] := by
      have := i2
      rw [htrips] at this
      simpa using this
    have htail : s.activeTrips.tail = [] := by simp [htrips, hrest]
    refine ⟨?_, ?_, ?_, ?_, ?_, ?_, ?_⟩
    · simp [stepComplete, htail]
    · simp [stepComplete, htail]
    · simp [stepComplete, i3]
    · have : s.deliveredCount + s.activeTrips.length ≤ MAX_DELIVERIES := i4
      rw [htrips, hrest] at this
      simp only [List.length_cons, List.length_nil] at this
      simp [stepComplete, htail]
      omega
    · simp [stepComplete]
    · simp [stepComplete]
    · simp [stepComplete]

/-- Min-max bounds for lerp on the unit interval. -/
theorem lerp_between (a b t : ℝ) (h0 : 0 ≤ t) (h1 : t ≤ 1) :
    min a b ≤ lerp a b t ∧ lerp a b t ≤ max a b := by
  unfold lerp
  rcases le_total a b with hab | hba
  · rw [min_eq_left hab, max_eq_right hab]
    constructor <;> nlinarith
  · rw [min_eq_right hba, max_eq_left hba]
    constructor <;> nlinarith

/-- In a reachable state, a running animation forces the delivered count
strictly below the cap (the trip in flight still counts against it). -/
theorem inflight_count_lt {s : AppState} (h : Reachable s)
    (ha : s.isAnimating = true) : s.deliveredCount < MAX_DELIVERIES := by
  obtain ⟨i1, i2, i3, i4, i5, i6, i7⟩ := reachable_inv h
  have hne : s.activeTrips ≠ [] := i1.mp ha
  have hlen : 1 ≤ s.activeTrips.length := by
    cases hl : s.activeTrips with
    | nil => exact absurd hl hne
    | cons a l => simp
  omega

/-! ## Interpolator lemmas -/

theorem lerp_zero (a b : ℝ) : lerp a b 0 = a := by
  unfold lerp; ring

theorem lerp_one (a b : ℝ) : lerp a b 1 = b := by
  unfold lerp; ring

theorem scaleAt_zero : scaleAt 0 = 1 := by
  simp [scaleAt]

theorem scaleAt_one : scaleAt 1 = 1 := by
  simp [scaleAt]

theorem scaleAt_half : scaleAt (1/2) = 1.6 := by
  unfold scaleAt
  rw [show Real.pi * (1/2) = Real.pi / 2 by ring, Real.sin_pi_div_two]
  norm_num

/-! ## Claims about the interpolator -/

/-- Claim C1: for every start, end and fraction t, the interpolator returns
position.lat = from.lat + (to.lat - from.lat) * t, likewise for longitude,
and scale = 1 + 0.6 * sin(pi * t); it is a total pure function, and an
animation frame writes exactly these two values into the state. -/
theorem interpolate_contract (s : AppState) (src dst : Coord) (t : ℝ) :
    interpolate src dst t =
      ((src.1 + (dst.1 - src.1) * t, src.2 + (dst.2 - src.2) * t),
        1 + 0.6 * Real.sin (Real.pi * t)) ∧
    (stepMove s src dst t).movingPosition = some (interpolate src dst t).1 ∧
    (stepMove s src dst t).movingScale = (interpolate src dst t).2 :=
  ⟨rfl, rfl, rfl⟩

/-- Claim C6: for every from/to pair — including the concrete coordinates of
the spec's example — the interpolator at t = 0 returns position = from with
scale 1, at t = 1 returns position = to with scale 1, and at t = 1/2 the
scale is exactly 1.6. -/
theorem interpolate_endpoints (src dst : Coord) :
    interpolate src dst 0 = (src, 1) ∧
    interpolate src dst 1 = (dst, 1) ∧
    (interpolate src dst (1/2)).2 = 1.6 ∧
    interpolate (13.0549, 80.2241) (-34.5842, -58.3982) 0
      = ((13.0549, 80.2241), 1) ∧
    interpolate (13.0549, 80.2241) (-34.5842, -58.3982) 1
      = ((-34.5842, -58.3982), 1) := by
  refine ⟨?_, ?_, scaleAt_half, ?_, ?_⟩ <;>
    simp [interpolate, lerp_zero, lerp_one, scaleAt_zero, scaleAt_one]

/-- Claim C7: for every from, to and t in [0, 1], the interpolated position
is the convex combination (1 - t) * from + t * to componentwise, and each
component lies between the corresponding components of from and to. -/
theorem interpolate_on_segment (src dst : Coord) (t : ℝ)
    (h0 : 0 ≤ t) (h1 : t ≤ 1) :
    (interpolate src dst t).1
      = ((1 - t) * src.1 + t * dst.1, (1 - t) * src.2 + t * dst.2) ∧
    min src.1 dst.1 ≤ (interpolate src dst t).1.1 ∧
    (interpolate src dst t).1.1 ≤ max src.1 dst.1 ∧
    min src.2 dst.2 ≤ (interpolate src dst t).1.2 ∧
    (interpolate src dst t).1.2 ≤ max src.2 dst.2 := by
  obtain ⟨ha1, ha2⟩ := lerp_between src.1 dst.1 t h0 h1
  obtain ⟨hb1, hb2⟩ := lerp_between src.2 dst.2 t h0 h1
  refine ⟨?_, ha1, ha2, hb1, hb2⟩
  unfold interpolate lerp
  simp only [Prod.mk.injEq]
  constructor <;> ring

/-- Witness for claim C7 at from = (0, 0), to = (1, 2), t = 1/2. -/
theorem interpolate_on_segment_witness :
    (0 : ℝ) ≤ 1/2 ∧ (1/2 : ℝ) ≤ 1 ∧
    ((interpolate ((0 : ℝ), (0 : ℝ)) ((1 : ℝ), (2 : ℝ)) (1/2)).1
        = ((1 - (1/2 : ℝ)) * 0 + (1/2 : ℝ) * 1,
           (1 - (1/2 : ℝ)) * 0 + (1/2 : ℝ) * 2) ∧
      min (0 : ℝ) 1 ≤ (interpolate ((0 : ℝ), (0 : ℝ)) ((1 : ℝ), (2 : ℝ)) (1/2)).1.1 ∧
      (interpolate ((0 : ℝ), (0 : ℝ)) ((1 : ℝ), (2 : ℝ)) (1/2)).1.1 ≤ max (0 : ℝ) 1 ∧
      min (0 : ℝ) 2 ≤ (interpolate ((0 : ℝ), (0 : ℝ)) ((1 : ℝ), (2 : ℝ)) (1/2)).1.2 ∧
      (interpolate ((0 : ℝ), (0 : ℝ)) ((1 : ℝ), (2 : ℝ)) (1/2)).1.2 ≤ max (0 : ℝ) 2) :=
  ⟨by norm_num, by norm_num,
    interpolate_on_segment ((0 : ℝ), (0 : ℝ)) ((1 : ℝ), (2 : ℝ)) (1/2)
      (by norm_num) (by norm_num)⟩

/-! ## Claims about the delivery tracker -/

/-- Claim C2: in every reachable state at most one trip is active, the
delivered markers never exceed MAX_DELIVERIES, and a click starts a new trip
only when no trip is active and the delivered count is below the cap. -/
theorem tracker_safety (s : AppState) (h : Reachable s) :
    s.activeTrips.length ≤ 1 ∧
    s.deliveredMarkers.length ≤ MAX_DELIVERIES ∧
    s.deliveredCount ≤ MAX_DELIVERIES ∧
    ((handleOrderClick s).2 = ClickResult.started →
      s.activeTrips = [] ∧ s.isAnimating = false ∧
      s.deliveredCount < MAX_DELIVERIES) := by
  obtain ⟨i1, i2, i3, i4, i5, i6, i7⟩ := reachable_inv h
  refine ⟨i2, by omega, by omega, ?_⟩
  intro hst
  by_cases hmax : MAX_DELIVERIES ≤ s.deliveredCount
  · simp [handleOrderClick, hmax] at hst
  · by_cases hanim : s.isAnimating = true
    · simp [handleOrderClick, hmax, hanim] at hst
    · have hanim' : s.isAnimating = false := by
        revert hanim; cases s.isAnimating <;> simp
      have htrips : s.activeTrips = [] := by
        by_contra hne
        have := i1.mpr hne
        rw [hanim'] at this
        exact Bool.false_ne_true this
      exact ⟨htrips, hanim', Nat.lt_of_not_le hmax⟩

/-- Witness for claim C2 at the initial state. -/
theorem tracker_safety_witness :
    initialState.activeTrips.length ≤ 1 ∧
    initialState.deliveredMarkers.length ≤ MAX_DELIVERIES ∧
    initialState.deliveredCount ≤ MAX_DELIVERIES ∧
    ((handleOrderClick initialState).2 = ClickResult.started →
      initialState.activeTrips = [] ∧ initialState.isAnimating = false ∧
      initialState.deliveredCount < MAX_DELIVERIES) :=
  tracker_safety initialState Reachable.init

/-- Claim C4: in every reachable state with a trip in flight, a click is a
silent no-op — the handler returns the state unchanged (same delivered count,
same markers, no second trip) with the silent outcome, which surfaces no
notice. -/
theorem dispatch_while_inflight (s : AppState) (h : Reachable s)
    (ha : s.isAnimating = true) :
    handleOrderClick s = (s, ClickResult.silentNoOp) ∧
    surfacesNotice (handleOrderClick s).2 = false := by
  have hlt := inflight_count_lt h ha
  have hmax : ¬ MAX_DELIVERIES ≤ s.deliveredCount := Nat.not_le_of_lt hlt
  constructor
  · simp [handleOrderClick, hmax, ha]
  · simp [handleOrderClick, hmax, ha, surfacesNotice]

/-- Witness for claim C4 at the state reached by the first click. -/
theorem dispatch_while_inflight_witness :
    afterFirstClick.isAnimating = true ∧
    (handleOrderClick afterFirstClick = (afterFirstClick, ClickResult.silentNoOp) ∧
      surfacesNotice (handleOrderClick afterFirstClick).2 = false) :=
  ⟨rfl, dispatch_while_inflight afterFirstClick
    (Reachable.click initialState Reachable.init) rfl⟩

/-- Counterexample to claim C5 as stated: in the reachable in-flight state
after the first click, the dispatch is rejected with the silent outcome,
which surfaces no user-visible notice — contradicting the claim that a
dispatch while InFlight is rejected with a notice. -/
theorem dispatch_inflight_notice_cex :
    trackerState afterFirstClick = TrackerState.InFlight ∧
    handleOrderClick afterFirstClick = (afterFirstClick, ClickResult.silentNoOp) ∧
    surfacesNotice (handleOrderClick afterFirstClick).2 = false :=
  ⟨rfl, rfl, rfl⟩

/-- Claim C5 (amended): a dispatch in a reachable Idle state starts a trip
and moves the tracker to InFlight; a dispatch while InFlight is rejected as
a silent no-op (no notice); a dispatch while Exhausted is rejected as a
no-op with a user-visible notice. -/
theorem dispatch_transitions (s : AppState) (h : Reachable s) :
    (trackerState s = TrackerState.Idle →
      (handleOrderClick s).2 = ClickResult.started ∧
      trackerState (handleOrderClick s).1 = TrackerState.InFlight) ∧
    (trackerState s = TrackerState.InFlight →
      handleOrderClick s = (s, ClickResult.silentNoOp) ∧
      surfacesNotice (handleOrderClick s).2 = false) ∧
    (trackerState s = TrackerState.Exhausted →
      handleOrderClick s = (s, ClickResult.maxAlert) ∧
      surfacesNotice (handleOrderClick s).2 = true) := by
  obtain ⟨i1, i2, i3, i4, i5, i6, i7⟩ := reachable_inv h
  refine ⟨?_, ?_, ?_⟩
  · intro hid
    by_cases hanim : s.isAnimating = true
    · simp [trackerState, hanim] at hid
    · have hanim' : s.isAnimating = false := by
        revert hanim; cases s.isAnimating <;> simp
      by_cases hmax : MAX_DELIVERIES ≤ s.deliveredCount
      · simp [trackerState, hanim', hmax] at hid
      · have hidle : s.showIdle = true := i5.mpr ⟨hanim', Nat.lt_of_not_le hmax⟩
        constructor
        · simp [handleOrderClick, hmax, hanim', hidle]
        · simp [handleOrderClick, hmax, hanim', hidle, trackerState, animateBucket]
  · intro hinf
    by_cases hanim : s.isAnimating = true
    · have hlt := inflight_count_lt h hanim
      have hmax : ¬ MAX_DELIVERIES ≤ s.deliveredCount := Nat.not_le_of_lt hlt
      constructor
      · simp [handleOrderClick, hmax, hanim]
      · simp [handleOrderClick, hmax, hanim, surfacesNotice]
    · have hanim' : s.isAnimating = false := by
        revert hanim; cases s.isAnimating <;> simp
      by_cases hmax : MAX_DELIVERIES ≤ s.deliveredCount
      · simp [trackerState, hanim', hmax] at hinf
      · simp [trackerState, hanim', hmax] at hinf
  · intro hex
    by_cases hanim : s.isAnimating = true
    · simp [trackerState, hanim] at hex
    · have hanim' : s.isAnimating = false := by
        revert hanim; cases s.isAnimating <;> simp
      by_cases hmax : MAX_DELIVERIES ≤ s.deliveredCount
      · constructor
        · simp [handleOrderClick, hmax]
        · simp [handleOrderClick, hmax, surfacesNotice]
      · simp [trackerState, hanim', hmax] at hex

/-- Witness for the amended claim C5 at the initial state. -/
theorem dispatch_transitions_witness :
    (trackerState initialState = TrackerState.Idle →
      (handleOrderClick initialState).2 = ClickResult.started ∧
      trackerState (handleOrderClick initialState).1 = TrackerState.InFlight) ∧
    (trackerState initialState = TrackerState.InFlight →
      handleOrderClick initialState = (initialState, ClickResult.silentNoOp) ∧
      surfacesNotice (handleOrderClick initialState).2 = false) ∧
    (trackerState initialState = TrackerState.Exhausted →
      handleOrderClick initialState = (initialState, ClickResult.maxAlert) ∧
      surfacesNotice (handleOrderClick initialState).2 = true) :=
  dispatch_transitions initialState Reachable.init

/-- Claim C8: in every reachable state the delivered-marker list and the
delivered count stay in sync — the length of the list equals the count;
both start at zero/empty, and a completion appends exactly one marker while
incrementing the count by exactly one. -/
theorem markers_count_in_sync (s : AppState) (h : Reachable s) :
    s.deliveredMarkers.length = s.deliveredCount ∧
    (stepComplete s ARGENTINA_COORD).deliveredMarkers.length
      = s.deliveredMarkers.length + 1 ∧
    (stepComplete s ARGENTINA_COORD).deliveredCount = s.deliveredCount + 1 ∧
    initialState.deliveredMarkers.length = 0 ∧
    initialState.deliveredCount = 0 := by
  obtain ⟨i1, i2, i3, i4, i5, i6, i7⟩ := reachable_inv h
  exact ⟨i3, by simp [stepComplete], rfl, rfl, rfl⟩

/-- Witness for claim C8 at the initial state. -/
theorem markers_count_in_sync_witness :
    initialState.deliveredMarkers.length = initialState.deliveredCount ∧
    (stepComplete initialState ARGENTINA_COORD).deliveredMarkers.length
      = initialState.deliveredMarkers.length + 1 ∧
    (stepComplete initialState ARGENTINA_COORD).deliveredCount
      = initialState.deliveredCount + 1 ∧
    initialState.deliveredMarkers.length = 0 ∧
    initialState.deliveredCount = 0 :=
  markers_count_in_sync initialState Reachable.init

/-- Claim C9: in every reachable state the moving-marker position is
non-null exactly when a trip is animating; when not animating, the position
is null and the moving scale is 1; a started click sets position and flag
together, and a completion clears the position, resets the scale to 1, and
clears the flag together. -/
theorem moving_marker_iff_animating (s : AppState) (h : Reachable s) :
    (s.movingPosition ≠ none ↔ s.isAnimating = true) ∧
    (s.isAnimating = false → s.movingPosition = none ∧ s.movingScale = 1) ∧
    ((handleOrderClick s).2 = ClickResult.started →
      (handleOrderClick s).1.movingPosition = some INDIA_COORD ∧
      (handleOrderClick s).1.isAnimating = true) ∧
    (stepComplete s ARGENTINA_COORD).movingPosition = none ∧
    (stepComplete s ARGENTINA_COORD).movingScale = 1 ∧
    (stepComplete s ARGENTINA_COORD).isAnimating = false := by
  obtain ⟨i1, i2, i3, i4, i5, i6, i7⟩ := reachable_inv h
  refine ⟨i6, ?_, ?_, rfl, rfl, rfl⟩
  · intro hf
    have hnn : ¬ s.movingPosition ≠ none := fun hne => by
      have := i6.mp hne
      rw [hf] at this
      exact Bool.false_ne_true this
    exact ⟨not_not.mp hnn, i7 hf⟩
  · intro hst
    by_cases hmax : MAX_DELIVERIES ≤ s.deliveredCount
    · simp [handleOrderClick, hmax] at hst
    · by_cases hanim : s.isAnimating = true
      · simp [handleOrderClick, hmax, hanim] at hst
      · have hanim' : s.isAnimating = false := by
          revert hanim; cases s.isAnimating <;> simp
        by_cases hidle : s.showIdle = true
        · constructor <;> simp [handleOrderClick, hmax, hanim', hidle, animateBucket]
        · have hidle' : s.showIdle = false := by
            revert hidle; cases s.showIdle <;> simp
          simp [handleOrderClick, hmax, hanim', hidle'] at hst

/-- Witness for claim C9 at the initial state. -/
theorem moving_marker_iff_animating_witness :
    (initialState.movingPosition ≠ none ↔ initialState.isAnimating = true) ∧
    (initialState.isAnimating = false →
      initialState.movingPosition = none ∧ initialState.movingScale = 1) ∧
    ((handleOrderClick initialState).2 = ClickResult.started →
      (handleOrderClick initialState).1.movingPosition = some INDIA_COORD ∧
      (handleOrderClick initialState).1.isAnimating = true) ∧
    (stepComplete initialState ARGENTINA_COORD).movingPosition = none ∧
    (stepComplete initialState ARGENTINA_COORD).movingScale = 1 ∧
    (stepComplete initialState ARGENTINA_COORD).isAnimating = false :=
  moving_marker_iff_animating initialState Reachable.init

/-- Claim C10: in every reachable state the idle flag is set exactly when no
trip is animating and the delivered count is below the cap; consequently the
third rejection branch of the click handler (the no-idle notice) is never
taken from a reachable state. -/
theorem no_idle_branch_unreachable (s : AppState) (h : Reachable s) :
    (s.showIdle = true ↔
      (s.isAnimating = false ∧ s.deliveredCount < MAX_DELIVERIES)) ∧
    (handleOrderClick s).2 ≠ ClickResult.noIdleAlert := by
  obtain ⟨i1, i2, i3, i4, i5, i6, i7⟩ := reachable_inv h
  refine ⟨i5, ?_⟩
  by_cases hmax : MAX_DELIVERIES ≤ s.deliveredCount
  · simp [handleOrderClick, hmax]
  · by_cases hanim : s.isAnimating = true
    · simp [handleOrderClick, hmax, hanim]
    · have hanim' : s.isAnimating = false := by
        revert hanim; cases s.isAnimating <;> simp
      have hidle : s.showIdle = true := i5.mpr ⟨hanim', Nat.lt_of_not_le hmax⟩
      simp [handleOrderClick, hmax, hanim', hidle]

/-- Witness for claim C10 at the initial state. -/
theorem no_idle_branch_unreachable_witness :
    (initialState.showIdle = true ↔
      (initialState.isAnimating = false ∧
        initialState.deliveredCount < MAX_DELIVERIES)) ∧
    (handleOrderClick initialState).2 ≠ ClickResult.noIdleAlert :=
  no_idle_branch_unreachable initialState Reachable.init

/-- Claim C3: five consecutive completed deliveries from the initial state
(each click genuinely starting a trip) yield five delivered markers, a count
of five, and an Exhausted tracker; that run is reachable; and every further
click — the 6th and beyond, indefinitely — leaves the state unchanged and is
rejected with the user-visible cap notice. -/
theorem five_deliveries_exhaust :
    (runTrips 5).deliveredMarkers.length = 5 ∧
    (runTrips 5).deliveredCount = 5 ∧
    trackerState (runTrips 5) = TrackerState.Exhausted ∧
    Reachable (runTrips 5) ∧
    (∀ i : Fin 5, (handleOrderClick (runTrips i)).2 = ClickResult.started) ∧
    (∀ n : ℕ, clicksAfter n = runTrips 5 ∧
      (handleOrderClick (clicksAfter n)).2 = ClickResult.maxAlert ∧
      surfacesNotice (handleOrderClick (clicksAfter n)).2 = true) := by
  refine ⟨rfl, rfl, rfl, ?_, by decide, ?_⟩
  · have r0 : Reachable (runTrips 0) := Reachable.init
    have r1 : Reachable (runTrips 1) :=
      Reachable.complete _ INDIA_COORD ARGENTINA_COORD []
        (Reachable.click _ r0) rfl
    have r2 : Reachable (runTrips 2) :=
      Reachable.complete _ INDIA_COORD ARGENTINA_COORD []
        (Reachable.click _ r1) rfl
    have r3 : Reachable (runTrips 3) :=
      Reachable.complete _ INDIA_COORD ARGENTINA_COORD []
        (Reachable.click _ r2) rfl
    have r4 : Reachable (runTrips 4) :=
      Reachable.complete _ INDIA_COORD ARGENTINA_COORD []
        (Reachable.click _ r3) rfl
    exact Reachable.complete _ INDIA_COORD ARGENTINA_COORD []
      (Reachable.click _ r4) rfl
  · intro n
    induction n with
    | zero => exact ⟨rfl, rfl, rfl⟩
    | succ n ih =>
      obtain ⟨he, h2, h3⟩ := ih
      have hstep : clicksAfter (n + 1) = runTrips 5 := by
        show (handleOrderClick (clicksAfter n)).1 = runTrips 5
        rw [he]
        exact rfl
      refine ⟨hstep, ?_, ?_⟩
      · rw [hstep]
        exact rfl
      · rw [hstep]
        exact rfl
